import Mathlib

/-!
Verification of the incremental relational-source polling engine of the
`mysqlrecordsreceiver` package (file `config.go` of the receiver): the MySQL
client construction (`newMySQLClient`), the pooled-connection setup (`Connect`),
the per-tick fetch (`getRecords`) and the row-to-record encoding
(`ExecuteQueryandFetchRecords`).

The Go code is embedded shallowly:

* Go `map[string]string` values become association lists (`List (String × α)`)
  with Go assignment semantics (`minsert` overwrites an existing key).
* The database driver is an oracle `String → DBResult` giving, for a query
  string, the outcome of `client.Query`, `rows.Columns`, `rows.Scan` and
  `rows.Err` together with the raw rows (`none` entries are SQL NULLs,
  mirroring a nil `sql.RawBytes`).
* Side effects (logging, query execution, checkpoint reads/writes) are made
  visible as an event trace (`Ev`).  Downstream delivery never happens inside
  these functions, so the `Ev.deliver` constructor is never emitted by them.
* A Go panic (nil-interface type assertion, out-of-range index) is modelled by
  an `Option` result: `none` means the function does not return.
* `strings.Replace(s, old, new, -1)` is `replAll` on character lists,
  `strings.Contains` is `goContains`, `strings.TrimSpace` is `goTrim`.
* JSON marshalling of a `map[string]string` and the matching unmarshalling are
  modelled as the identity on the association-list object: the encoded Record
  carries exactly the column-to-string map the code built.

The checkpoint store (`GetState` / `SaveState`) is not part of the provided
sources; it is modelled from the spec (see the doc comments on those
definitions).
-/

/-- Go map lookup on an association list (`m[k]` with comma-ok semantics:
`none` models the missing-key case, in which a Go string-valued map yields `""`
and an interface-valued map yields `nil`). -/
def mfind {α : Type} : List (String × α) → String → Option α
  | [], _ => none
  | (k, v) :: rest, key => if k = key then some v else mfind rest key

/-- Go map assignment `m[k] = v`: overwrite the existing entry or add one. -/
def minsert {α : Type} : List (String × α) → String → α → List (String × α)
  | [], key, val => [(key, val)]
  | (k, v) :: rest, key, val =>
    if k = key then (key, val) :: rest else (k, v) :: minsert rest key val

/-- One decoded record object: the `myjsonobject` column-name-to-string map. -/
abbrev Obj := List (String × String)

/-- Fuel-indexed worker for `replAll`; the fuel only serves structural
recursion and is irrelevant as soon as it is at least the input length. -/
def replAllGo (pat rep : List Char) : Nat → List Char → List Char
  | _, [] => []
  | 0, s => s
  | fuel + 1, c :: cs =>
    if pat ≠ [] ∧ pat.isPrefixOf (c :: cs) then
      rep ++ replAllGo pat rep fuel (cs.drop (pat.length - 1))
    else
      c :: replAllGo pat rep fuel cs

/-- Embedding of Go `strings.Replace(s, old, new, -1)` on character lists:
scan left to right, on a match emit the replacement and continue after the
matched occurrence.  The receiver only ever calls it with the non-empty
patterns `"STATEVALUE"` and `"INDEXCOLUMNNAME"`. -/
def replAll (pat rep s : List Char) : List Char :=
  replAllGo pat rep s.length s

/-- String-level wrapper for `replAll`. -/
def goReplaceAll (s old new : String) : String :=
  String.mk (replAll old.toList new.toList s.toList)

/-- Embedding of Go `strings.Contains(s, sub)`. -/
def goContains (s sub : String) : Bool :=
  decide (sub.toList <:+: s.toList)

/-- Character list of the checkpoint placeholder. -/
def svList : List Char := "STATEVALUE".toList

/-- Character list of the cursor-column placeholder. -/
def icnList : List Char := "INDEXCOLUMNNAME".toList

/-- Embedding of Go `strings.TrimSpace`. -/
def goTrim (s : String) : String :=
  String.mk ((((s.toList).dropWhile Char.isWhitespace).reverse.dropWhile
    Char.isWhitespace).reverse)

/-- One entry of the receiver configuration's `db_queries` list (Go struct
`DBQueries`).  `getRecords` receives a pointer to it, so its `Query` field can
be (and is) mutated by the call. -/
structure DBQueries where
  QueryId : String
  Query : String
  IndexColumnName : String
  IndexColumnType : String
  InitialIndexColumnStartValue : String
deriving DecidableEq

/-- Outcome the `database/sql` driver produces for one query: the errors of
`client.Query`, `rows.Columns`, `rows.Scan` and `rows.Err`, plus the column
names and the raw rows (a `none` cell is a SQL NULL, i.e. a nil
`sql.RawBytes`). -/
structure DBResult where
  execErr : Option String
  columnsErr : Option String
  columns : List String
  rows : List (List (Option String))
  scanErr : Option String
  rowsErr : Option String
deriving DecidableEq

/-- Observable events of one embedded call. -/
inductive Ev where
  | logError (msg : String)
  | logInfo (msg : String)
  | execQuery (q : String)
  | stateRead (queryId : String)
  | stateWrite (queryId value : String)
  | deliver
deriving DecidableEq

/-- The inner per-row loop of `ExecuteQueryandFetchRecords`:
`for _, col := range values { if col == nil { value = "NULL" } else { value =
string(col); line = append(line, value) } }`.  Note that the `"NULL"` sentinel
is assigned to `value` but never appended, so a NULL cell is dropped from the
line. -/
def buildLineGo : List String → List (Option String) → List String
  | line, [] => line
  | line, none :: rest => buildLineGo line rest
  | line, some v :: rest => buildLineGo (line ++ [v]) rest

/-- The line built for one row, starting from the empty (nil) slice. -/
def buildLine (row : List (Option String)) : List String := buildLineGo [] row

/-- The inner object-building loop `for i, v := range value {
myjsonobject[columns[i]] = v }`: walk the line left to right, writing the i-th
value under the i-th column name.  `none` models the Go panic when the line is
longer than the column list. -/
def scanLineIntoObj : List String → List String → Obj → Option Obj
  | _cols, [], obj => some obj
  | [], _v :: _, _ => none
  | c :: cols, v :: line, obj => scanLineIntoObj cols line (minsert obj c v)

/-- The record-building loop of `ExecuteQueryandFetchRecords`: for each line,
update the shared `myjsonobject` (which is never cleared between rows), store
its snapshot under the key `<queryid>_record<j+1>`, and remember that key as
`lastIndex`. -/
def recordsLoop (qid : String) (columns : List String) :
    List (List String) → Obj → Nat → List (String × Obj) → String →
    Option (List (String × Obj) × String)
  | [], _obj, _j, acc, last => some (acc, last)
  | line :: rest, obj, j, acc, _last =>
    match scanLineIntoObj columns line obj with
    | none => none
    | some obj2 =>
      recordsLoop qid columns rest obj2 (j + 1)
        (minsert acc (qid ++ "_record" ++ toString (j + 1)) obj2)
        (qid ++ "_record" ++ toString (j + 1))

/-- Folding `scanLineIntoObj` over a list of lines: the value the shared
`myjsonobject` holds after processing those lines. -/
def scanFold (columns : List String) : List (List String) → Obj → Option Obj
  | [], obj => some obj
  | line :: rest, obj =>
    match scanLineIntoObj columns line obj with
    | none => none
    | some obj2 => scanFold columns rest obj2

/-- Embedding of `ExecuteQueryandFetchRecords(c, query, queryid)`.  Returns the
Go triple `(map, lastIndex, error)` plus the event trace; the outer `Option` is
`none` on a Go panic.  Every error path logs and returns a nil map, an empty
lastIndex and a nil error. -/
def ExecuteQueryandFetchRecords (db : String → DBResult) (query queryid : String) :
    Option (Option (List (String × Obj)) × String × Option String × List Ev) :=
  let r := db query
  let t0 := [Ev.execQuery query]
  if r.execErr.isSome then
    some (none, "", none, t0 ++ [Ev.logError "Error in executing sql query"])
  else if r.columnsErr.isSome then
    some (none, "", none, t0 ++ [Ev.logError "Error getting column names from table"])
  else if r.scanErr.isSome then
    some (none, "", none, t0 ++ [Ev.logError "Error scanning rows from table"])
  else if r.rowsErr.isSome then
    some (none, "", none, t0 ++ [Ev.logError "Error found in rows"])
  else
    match recordsLoop queryid r.columns (r.rows.map buildLine) [] 0 [] "" with
    | none => none
    | some (recs, last) => some (some recs, last, none, t0)

/-- Modelled from the spec: the Checkpoint Store read `GetState` is not among
the provided sources.  Per the spec the store "persists/retrieves the last-seen
cursor value per query" and the rewrite substitutes "the current checkpoint
value (or the configured initial value on first run)". -/
def GetState (dbquery : DBQueries) (state : List (String × String)) : String :=
  (mfind state dbquery.QueryId).getD dbquery.InitialIndexColumnStartValue

/-- Modelled from the spec: the Checkpoint Store write `SaveState` is not among
the provided sources.  Per the spec it records, for the query's identifier, the
cursor value being advanced past. -/
def SaveState (dbquery : DBQueries) (v : String) (state : List (String × String)) :
    List (String × String) :=
  minsert state dbquery.QueryId v

/-- The query text after the `+=` in `getRecords`: the placeholder predicate is
appended with `and`/`where` depending on `strings.Contains(query, "where")`,
and the `STATEVALUE` placeholder is double-quoted exactly when the cursor type
is `TIMESTAMP`. -/
def appendedQuery (q : DBQueries) : String :=
  if q.IndexColumnType = "TIMESTAMP" then
    if goContains q.Query "where" then
      q.Query ++ " and INDEXCOLUMNNAME > \"STATEVALUE\" order by INDEXCOLUMNNAME asc;"
    else
      q.Query ++ " where INDEXCOLUMNNAME > \"STATEVALUE\" order by INDEXCOLUMNNAME asc;"
  else if q.IndexColumnType = "NUMBER" then
    if goContains q.Query "where" then
      q.Query ++ " and INDEXCOLUMNNAME > STATEVALUE order by INDEXCOLUMNNAME asc;"
    else
      q.Query ++ " where INDEXCOLUMNNAME > STATEVALUE order by INDEXCOLUMNNAME asc;"
  else q.Query

/-- The query text actually executed in the cursor path: the appended text with
`STATEVALUE` replaced by the current checkpoint value and `INDEXCOLUMNNAME`
replaced by the configured cursor column (both via `strings.Replace(_, _, _,
-1)`, in that order). -/
def rewrittenQuery (q : DBQueries) (state : List (String × String)) : String :=
  goReplaceAll (goReplaceAll (appendedQuery q) "STATEVALUE" (GetState q state))
    "INDEXCOLUMNNAME" q.IndexColumnName

/-- Result of one embedded `getRecords` call: the returned map and error, the
`DBQueries` value after the call (the Go code mutates it through the pointer),
the checkpoint map after the call, and the event trace. -/
structure GRes where
  records : Option (List (String × Obj))
  err : Option String
  dbq : DBQueries
  state : List (String × String)
  trace : List Ev
deriving DecidableEq

/-- Embedding of `(c *mySQLClient) getRecords(dbquery *DBQueries)`.  The outer
`Option` is `none` on a Go panic (the `.(string)` assertion on a missing
cursor-column field). -/
def getRecords (db : String → DBResult) (dbquery : DBQueries)
    (state : List (String × String)) : Option GRes :=
  if (goTrim dbquery.Query).length = 0 then
    some ⟨none, none, dbquery, state,
      [Ev.logError "Query is empty, check collector config file"]⟩
  else if (goTrim dbquery.IndexColumnName).length = 0 then
    match ExecuteQueryandFetchRecords db dbquery.Query dbquery.QueryId with
    | none => none
    | some (recs, _last, e, t) =>
      let myEntireRecords := recs.getD []
      let t := Ev.logInfo
        "IndexColumnName missing from collector config file, so fetching all records" :: t
      if e.isSome then
        some ⟨none, none, dbquery, state,
          t ++ [Ev.logError "Error in executing query and fetching records"]⟩
      else if myEntireRecords.length = 0 then
        some ⟨some myEntireRecords, none, dbquery, state,
          t ++ [Ev.logInfo "No database records found for query"]⟩
      else
        some ⟨some myEntireRecords, none, dbquery, state,
          t ++ [Ev.logInfo "Database records found for query"]⟩
  else if (goTrim dbquery.IndexColumnType).length = 0 then
    some ⟨none, none, dbquery, state,
      [Ev.logError "IndexColummType should be specified with a IndexColumnName for a query",
       Ev.logError "Supported values are TIMESTAMP or NUMBER"]⟩
  else if dbquery.IndexColumnType ≠ "TIMESTAMP" ∧ dbquery.IndexColumnType ≠ "NUMBER" then
    some ⟨none, none, dbquery, state,
      [Ev.logError "Configured non supported Indexcolummtype, supported values are TIMESTAMP or NUMBER",
       Ev.logError "Check collector configuration file"]⟩
  else
    let q2 := rewrittenQuery dbquery state
    let dbq2 : DBQueries := { dbquery with Query := q2 }
    match ExecuteQueryandFetchRecords db q2 dbquery.QueryId with
    | none => none
    | some (recs, last, e, t) =>
      let myEntireRecords := recs.getD []
      let t := Ev.logInfo "IndexColumnName specified, fetching records incrementally"
        :: Ev.stateRead dbquery.QueryId :: t
      if e.isSome then
        some ⟨none, none, dbq2, state,
          t ++ [Ev.logError "Error in executing query and fetching records"]⟩
      else if myEntireRecords.length = 0 then
        some ⟨some myEntireRecords, none, dbq2, state,
          t ++ [Ev.logInfo "No new records found for query"]⟩
      else
        match mfind myEntireRecords last with
        | none =>
          some ⟨none, none, dbq2, state,
            t ++ [Ev.logError "Problem converting sql query resultset into json format"]⟩
        | some lastObj =>
          match mfind lastObj dbquery.IndexColumnName with
          | none => none
          | some v =>
            some ⟨some myEntireRecords, none, dbq2, SaveState dbquery v state,
              t ++ [Ev.logInfo "New database records found for query",
                    Ev.stateWrite dbquery.QueryId v]⟩

/-- The receiver configuration fields used by the client code (Go `Config`). -/
structure Config where
  AuthenticationMode : String
  Username : String
  Password : String
  PasswordType : String
  EncryptSecretPath : String
  Transport : String
  DBHost : String
  DBPort : String
  Database : String
  AllowNativePasswords : Bool
  Region : String
  AWSCertificatePath : String
  SetConnMaxLifetime : Int
  SetMaxOpenConns : Int
  SetMaxIdleConns : Int
deriving DecidableEq

/-- The `mysql.Config` the client builds; `connStr` is its `FormatDSN()`
serialisation, so this structure stands for the connection string. -/
structure MySQLDriverConfig where
  User : String
  Passwd : String
  Net : String
  Addr : String
  DBName : String
  AllowNativePasswords : Bool
  TLSConfig : String
  AllowCleartextPasswords : Bool
deriving DecidableEq

/-- A Go two-valued call `(value, err)`. -/
structure GoCall where
  val : String
  err : Option String
deriving DecidableEq

/-- Oracles for the collaborator functions `newMySQLClient` calls:
`readMySecret` (reads the key file), `Encrypt`/`Decrypt` (AES helpers, applied
to password and secret), and the AWS IAM token generation.  Their outcomes are
inputs of the embedding; the control flow on those outcomes is the code under
verification. -/
structure CredOracles where
  readMySecret : GoCall
  Encrypt : String → String → GoCall
  Decrypt : String → String → GoCall
  authToken : String

/-- Embedding of `newMySQLClient(conf, logger)`.  The Go function returns only
a `client` value (there is no error return); every failure of the oracles is
logged and execution continues with the zero values they returned. -/
def newMySQLClient (conf : Config) (oracle : CredOracles) :
    MySQLDriverConfig × List Ev :=
  let basicauthpassword := conf.Password
  let t1 : List Ev :=
    if (conf.PasswordType.length = 0 ∨ conf.PasswordType = "plaintext")
        ∧ conf.EncryptSecretPath.length ≠ 0 then
      (if oracle.readMySecret.err.isSome then
        [Ev.logError "error in reading encryption secret from file"] else [])
      ++ (if (oracle.Encrypt conf.Password oracle.readMySecret.val).err.isSome then
        [Ev.logError "error encrypting your classified text"] else [])
    else []
  let pt2 : String × List Ev :=
    if conf.PasswordType = "encrypted" then
      ((oracle.Decrypt conf.Password oracle.readMySecret.val).val,
        (if oracle.readMySecret.err.isSome then
          [Ev.logError "error in reading encryption secret from file"] else [])
        ++ (if (oracle.Decrypt conf.Password oracle.readMySecret.val).err.isSome then
          [Ev.logError "error decrypting your encrypted text"] else []))
    else (basicauthpassword, [])
  let endpoint := conf.DBHost ++ ":" ++ conf.DBPort
  if conf.AuthenticationMode = "IAMRDSAuth" then
    ({ User := conf.Username, Passwd := oracle.authToken, Net := conf.Transport,
       Addr := endpoint, DBName := conf.Database,
       AllowNativePasswords := conf.AllowNativePasswords,
       TLSConfig := "custom", AllowCleartextPasswords := true }, t1 ++ pt2.2)
  else
    ({ User := conf.Username, Passwd := pt2.1, Net := conf.Transport,
       Addr := endpoint, DBName := conf.Database,
       AllowNativePasswords := conf.AllowNativePasswords,
       TLSConfig := "", AllowCleartextPasswords := false }, t1 ++ pt2.2)

/-- The pool limits `Connect` installs on the opened handle
(`SetConnMaxLifetime` in minutes, `SetMaxOpenConns`, `SetMaxIdleConns`).  All
three Go conditions test `c.conf.SetConnMaxLifetime != 0`. -/
structure PoolLimits where
  connMaxLifetimeMins : Int
  maxOpenConns : Int
  maxIdleConns : Int
deriving DecidableEq

/-- Embedding of `(c *mySQLClient) Connect()`: the lifecycle limits applied to
the freshly opened `sql.DB` handle. -/
def Connect (conf : Config) : PoolLimits :=
  { connMaxLifetimeMins := if conf.SetConnMaxLifetime ≠ 0 then conf.SetConnMaxLifetime else 3
    maxOpenConns := if conf.SetConnMaxLifetime ≠ 0 then conf.SetMaxOpenConns else 5
    maxIdleConns := if conf.SetConnMaxLifetime ≠ 0 then conf.SetMaxIdleConns else 5 }

/-- Columns of the spec's `dept_manager` example. -/
def exColumns : List String := ["emp_no", "dept_no"]

/-- Raw rows of the spec's `dept_manager` example: `emp_no` 4 and 7. -/
def exRawRows : List (List String) := [["4", "d001"], ["7", "d002"]]

/-- Driver outcome for the example: no errors, the two rows above. -/
def exDBRes : DBResult :=
  { execErr := none, columnsErr := none, columns := exColumns,
    rows := exRawRows.map (fun r => r.map some), scanErr := none, rowsErr := none }

/-- Example driver oracle: every query yields `exDBRes`. -/
def exDb : String → DBResult := fun _ => exDBRes

/-- The spec's example cursor QuerySpec `Q2`. -/
def exQ2 : DBQueries :=
  ⟨"Q2", "Select * from dept_manager", "emp_no", "NUMBER", "3"⟩

/-- The rewritten `Q2` query of the spec's example. -/
def exQ2Rewritten : String :=
  "Select * from dept_manager where emp_no > 3 order by emp_no asc;"

/-- Full result of running `getRecords` on the example: the query text is
mutated in place, the checkpoint advances to `"7"` inside the call, and no
delivery event occurs. -/
def c1res : GRes :=
  { records := some
      [("Q2_record1", [("emp_no", "4"), ("dept_no", "d001")]),
       ("Q2_record2", [("emp_no", "7"), ("dept_no", "d002")])]
    err := none
    dbq := ⟨"Q2", exQ2Rewritten, "emp_no", "NUMBER", "3"⟩
    state := [("Q2", "7")]
    trace := [Ev.logInfo "IndexColumnName specified, fetching records incrementally",
              Ev.stateRead "Q2",
              Ev.execQuery exQ2Rewritten,
              Ev.logInfo "New database records found for query",
              Ev.stateWrite "Q2" "7"] }

/-- Driver outcome with a NULL in the first column of the only row. -/
def exDb5 : String → DBResult := fun _ =>
  { execErr := none, columnsErr := none, columns := ["a", "b"],
    rows := [[none, some "x"]], scanErr := none, rowsErr := none }

/-- A QuerySpec declaring a cursor column but no cursor type. -/
def dbqBadC6 : DBQueries := ⟨"Q3", "Select 1", "c", "", ""⟩

/-- The spec's example snapshot QuerySpec `Q1` (no cursor column). -/
def exQ1 : DBQueries := ⟨"Q1", "Select * from departments", "", "", ""⟩

/-- Driver outcome for the `departments` snapshot example: two rows. -/
def exDb7Res : DBResult :=
  { execErr := none, columnsErr := none, columns := ["dept_no", "dept_name"],
    rows := [[some "d001", some "Marketing"], [some "d002", some "Finance"]],
    scanErr := none, rowsErr := none }

/-- Driver oracle for the snapshot example. -/
def exDb7 : String → DBResult := fun _ => exDb7Res

/-- An `encrypted`-mode configuration (taken from the shipped example config). -/
def confEnc : Config :=
  { AuthenticationMode := "BasicAuth", Username := "test",
    Password := "uqDpyLNh4Ytfxw==", PasswordType := "encrypted",
    EncryptSecretPath := "secret.txt", Transport := "tcp", DBHost := "localhost",
    DBPort := "3306", Database := "employees", AllowNativePasswords := true,
    Region := "", AWSCertificatePath := "", SetConnMaxLifetime := 3,
    SetMaxOpenConns := 10, SetMaxIdleConns := 10 }

/-- Oracles in which both the key-file read and the decryption fail, returning
the Go zero value `""` alongside the error. -/
def failOracle : CredOracles :=
  { readMySecret := ⟨"", some "open secret.txt: no such file or directory"⟩,
    Encrypt := fun _ _ => ⟨"", none⟩,
    Decrypt := fun _ _ => ⟨"", some "cipher: message authentication failed"⟩,
    authToken := "" }

/-- Pool configuration: positive lifetime, zero max-open and max-idle. -/
def c9confA : Config := { confEnc with
  SetConnMaxLifetime := 3, SetMaxOpenConns := 0, SetMaxIdleConns := 0 }

/-- Pool configuration: zero lifetime, positive max-open and max-idle. -/
def c9confB : Config := { confEnc with
  SetConnMaxLifetime := 0, SetMaxOpenConns := 7, SetMaxIdleConns := 9 }

/-- Pool configuration: negative (non-positive) lifetime. -/
def c9confC : Config := { confEnc with
  SetConnMaxLifetime := -1, SetMaxOpenConns := 10, SetMaxIdleConns := 10 }

/-! ### Association-list lemmas -/

theorem mfind_minsert_self {α : Type} (m : List (String × α)) (k : String) (v : α) :
    mfind (minsert m k v) k = some v := by
  induction m with
  | nil => simp [minsert, mfind]
  | cons kv rest ih =>
    obtain ⟨k', v'⟩ := kv
    by_cases h : k' = k
    · simp [minsert, h, mfind]
    · simp [minsert, h, mfind, ih]

theorem mfind_minsert_other {α : Type} (m : List (String × α)) (k k' : String) (v : α)
    (h : k ≠ k') : mfind (minsert m k v) k' = mfind m k' := by
  induction m with
  | nil => simp [minsert, mfind, h]
  | cons kv rest ih =>
    obtain ⟨ka, va⟩ := kv
    by_cases hk : ka = k
    · subst hk
      simp [minsert, mfind, h]
    · simp [minsert, hk, mfind, ih]

theorem mfind_isSome_minsert {α : Type} (m : List (String × α)) (k k' : String) (v : α)
    (h : (mfind m k').isSome) : (mfind (minsert m k v) k').isSome := by
  by_cases hk : k = k'
  · subst hk; simp [mfind_minsert_self]
  · rwa [mfind_minsert_other m k k' v hk]

theorem mfind_ne_nil {α : Type} {m : List (String × α)} {k : String} {v : α}
    (h : mfind m k = some v) : m ≠ [] := by
  intro hm
  subst hm
  simp [mfind] at h

/-! ### Prefix and infix helpers -/

theorem isPre_iff {l₁ l₂ : List Char} : l₁.isPrefixOf l₂ = true ↔ l₁ <+: l₂ := by
  simp

theorem infix_of_pre {l₁ l₂ : List Char} (h : l₁ <+: l₂) : l₁ <:+: l₂ := by
  obtain ⟨t, rfl⟩ := h
  exact ⟨[], t, rfl⟩

theorem infix_cons_drop {a : Char} {l₁ l₂ : List Char} (h : l₁ <:+: l₂) :
    l₁ <:+: a :: l₂ := by
  obtain ⟨s, t, rfl⟩ := h
  exact ⟨a :: s, t, rfl⟩

theorem head_mem_of_sub {c : Char} {l s : List Char} (h : (c :: l) <:+: s) : c ∈ s := by
  obtain ⟨u, t, rfl⟩ := h
  simp

theorem not_infix_of_head_notMem {c : Char} {l s : List Char} (h : c ∉ s) :
    ¬ (c :: l) <:+: s :=
  fun hin => h (head_mem_of_sub hin)

theorem pre_split {l s t : List Char} (h : l <+: s ++ t) :
    l <+: s ∨ (s <+: l ∧ l.drop s.length <+: t) := by
  obtain ⟨u, hu⟩ := h
  by_cases hl : l.length ≤ s.length
  · left
    have htake : l = s.take l.length := by
      have h1 : (l ++ u).take l.length = l := by
        simp [List.take_append_eq_append_take, List.take_length]
      have h2 : (s ++ t).take l.length = s.take l.length := by
        simp [List.take_append_eq_append_take, Nat.sub_eq_zero_of_le hl]
      have e := congrArg (List.take l.length) hu
      rw [h1, h2] at e
      exact e
    have hsplit := List.take_append_drop l.length s
    rw [← htake] at hsplit
    exact ⟨s.drop l.length, hsplit⟩
  · right
    have hsl : s.length ≤ l.length := Nat.le_of_not_le hl
    have htake : l.take s.length = s := by
      have h1 : (l ++ u).take s.length = l.take s.length := by
        simp [List.take_append_eq_append_take, Nat.sub_eq_zero_of_le hsl]
      have h2 : (s ++ t).take s.length = s := by
        simp [List.take_append_eq_append_take, List.take_length]
      have e := congrArg (List.take s.length) hu
      rw [h1, h2] at e
      exact e
    constructor
    · have hsplit := List.take_append_drop s.length l
      rw [htake] at hsplit
      exact ⟨l.drop s.length, hsplit⟩
    · refine ⟨u, ?_⟩
      have h1 : (l ++ u).drop s.length = l.drop s.length ++ u := by
        simp [List.drop_append_eq_append_drop, Nat.sub_eq_zero_of_le hsl]
      have h2 : (s ++ t).drop s.length = t := by
        simp [List.drop_append_eq_append_drop, List.drop_length]
      rw [← h2, ← hu, h1]

/-! ### Lemmas about the `strings.Replace` embedding -/

theorem replAllGo_zero (pat rep : List Char) (s : List Char) :
    replAllGo pat rep 0 s = s := by
  cases s <;> rfl

theorem replAllGo_skip (p : Char) (ps rep : List Char) :
    ∀ (fuel : Nat) (s : List Char), ¬ (p :: ps) <:+: s →
      replAllGo (p :: ps) rep fuel s = s := by
  intro fuel
  induction fuel with
  | zero => intro s _; exact replAllGo_zero _ _ s
  | succ f ih =>
    intro s hs
    cases s with
    | nil => rfl
    | cons a s' =>
      have hnp : ¬ ((p :: ps) ≠ [] ∧ (p :: ps).isPrefixOf (a :: s')) := by
        rintro ⟨-, hpre⟩
        exact hs (infix_of_pre (isPre_iff.mp hpre))
      simp only [replAllGo, if_neg hnp]
      rw [ih s' (fun hh => hs (infix_cons_drop hh))]

theorem replAllGo_fuel (pat rep : List Char) :
    ∀ (f₁ : Nat) (s : List Char) (f₂ : Nat), s.length ≤ f₁ → s.length ≤ f₂ →
      replAllGo pat rep f₁ s = replAllGo pat rep f₂ s := by
  intro f₁
  induction f₁ with
  | zero =>
    intro s f₂ h1 _
    have hs : s = [] := List.eq_nil_of_length_eq_zero (Nat.le_zero.mp h1)
    subst hs
    cases f₂ <;> rfl
  | succ f ih =>
    intro s f₂ h1 h2
    cases s with
    | nil => cases f₂ <;> rfl
    | cons c cs =>
      cases f₂ with
      | zero => simp at h2
      | succ g =>
        simp only [List.length_cons, Nat.add_le_add_iff_right] at h1 h2
        by_cases hcond : pat ≠ [] ∧ pat.isPrefixOf (c :: cs)
        · simp only [replAllGo, if_pos hcond]
          congr 1
          have hd : (cs.drop (pat.length - 1)).length ≤ cs.length := by
            simp [List.length_drop]
          exact ih _ g (le_trans hd h1) (le_trans hd h2)
        · simp only [replAllGo, if_neg hcond]
          rw [ih cs g h1 h2]

theorem replAllGo_seam (p : Char) (ps rep : List Char) (c : Char) (t : List Char)
    (hc : c ∉ (p :: ps).drop 1) :
    ∀ (s : List Char) (fuel : Nat), ¬ (p :: ps) <:+: s →
      replAllGo (p :: ps) rep fuel (s ++ c :: t) =
        s ++ replAllGo (p :: ps) rep (fuel - s.length) (c :: t) := by
  intro s
  induction s with
  | nil => intro fuel _; simp
  | cons a s' ih =>
    intro fuel hs
    cases fuel with
    | zero =>
      simp [replAllGo_zero, Nat.zero_sub]
    | succ f =>
      have hnp : ¬ ((p :: ps) ≠ [] ∧ (p :: ps).isPrefixOf (a :: (s' ++ c :: t))) := by
        rintro ⟨-, hpre⟩
        have hpre' : (p :: ps) <+: (a :: s') ++ (c :: t) := isPre_iff.mp hpre
        rcases pre_split hpre' with h1 | ⟨h2, h3⟩
        · exact hs (infix_of_pre h1)
        · obtain ⟨w, hw⟩ := h2
          by_cases hlen : (p :: ps).length ≤ (a :: s').length
          · have hwnil : w = [] := by
              have hlw := congrArg List.length hw
              simp only [List.length_append, List.length_cons] at hlw
              simp only [List.length_cons] at hlen
              have : w.length = 0 := by omega
              exact List.eq_nil_of_length_eq_zero this
            subst hwnil
            simp at hw
            exact hs ⟨[], [], by simp [hw]⟩
          · have hklt : (a :: s').length < (p :: ps).length := Nat.lt_of_not_le hlen
            obtain ⟨w', hw'⟩ := h3
            have hdn : (p :: ps).drop (a :: s').length ≠ [] := by
              intro hnil
              have hln := congrArg List.length hnil
              simp only [List.length_drop, List.length_nil] at hln
              simp only [List.length_cons] at hln hklt
              omega
            cases hd : (p :: ps).drop (a :: s').length with
            | nil => exact hdn hd
            | cons x xs =>
              rw [hd] at hw'
              have hxc : x = c := by
                have hcons := hw'
                simp at hcons
                exact hcons.1
              have hxmem : x ∈ (p :: ps).drop 1 := by
                have hm1 : x ∈ (p :: ps).drop (a :: s').length := by
                  rw [hd]; exact List.mem_cons_self x xs
                have hm2 : (p :: ps).drop (a :: s').length =
                    ((p :: ps).drop 1).drop ((a :: s').length - 1) := by
                  rw [List.drop_drop]
                  congr 1
                  simp only [List.length_cons]
                  omega
                rw [hm2] at hm1
                exact List.drop_subset _ _ hm1
              rw [hxc] at hxmem
              exact hc hxmem
      rw [List.cons_append]
      simp only [replAllGo, if_neg hnp]
      rw [ih f (fun hh => hs (infix_cons_drop hh))]
      simp only [List.length_cons, Nat.succ_sub_succ, List.cons_append]

theorem replAllGo_hit (p : Char) (ps rep t : List Char) (f : Nat) :
    replAllGo (p :: ps) rep (f + 1) ((p :: ps) ++ t) =
      rep ++ replAllGo (p :: ps) rep f t := by
  have hpre : (p :: ps).isPrefixOf ((p :: ps) ++ t) = true := isPre_iff.mpr ⟨t, rfl⟩
  rw [List.cons_append]
  simp only [replAllGo]
  rw [if_pos ⟨List.cons_ne_nil p ps, hpre⟩]
  congr 1
  have : (p :: ps).length - 1 = ps.length := by simp
  rw [this, List.drop_left]

theorem replAll_skip {p : Char} {ps : List Char} (rep : List Char) {s : List Char}
    (hs : ¬ (p :: ps) <:+: s) : replAll (p :: ps) rep s = s :=
  replAllGo_skip p ps rep s.length s hs

theorem replAll_seam (p : Char) (ps rep : List Char) (s : List Char) (c : Char)
    (t : List Char) (hs : ¬ (p :: ps) <:+: s) (hc : c ∉ (p :: ps).drop 1) :
    replAll (p :: ps) rep (s ++ c :: t) = s ++ replAll (p :: ps) rep (c :: t) := by
  unfold replAll
  rw [replAllGo_seam p ps rep c t hc s (s ++ c :: t).length hs]
  congr 1
  apply replAllGo_fuel
  · simp
  · exact Nat.le_refl _

theorem replAll_hit (p : Char) (ps rep t : List Char) :
    replAll (p :: ps) rep ((p :: ps) ++ t) = rep ++ replAll (p :: ps) rep t := by
  unfold replAll
  have hlen : ((p :: ps) ++ t).length = (ps.length + t.length) + 1 := by
    simp [Nat.add_comm, Nat.add_left_comm, Nat.add_assoc]
  rw [hlen, replAllGo_hit]
  congr 1
  apply replAllGo_fuel
  · omega
  · exact Nat.le_refl _

theorem drop_head_mem {pat : List Char} {k : Nat} {x : Char} {xs : List Char}
    (hk : 0 < k) (hd : pat.drop k = x :: xs) : x ∈ pat.drop 1 := by
  have h1 : x ∈ pat.drop k := by rw [hd]; exact List.mem_cons_self x xs
  have h2 : pat.drop k = (pat.drop 1).drop (k - 1) := by
    rw [List.drop_drop]; congr 1; omega
  rw [h2] at h1
  exact List.drop_subset _ _ h1

theorem seam_head_hit {pat : List Char} {k : Nat} {c : Char} {t : List Char}
    (hk : 0 < k) (hlt : k < pat.length) (h : pat.drop k <+: c :: t) : c ∈ pat.drop 1 := by
  cases hd : pat.drop k with
  | nil =>
    have hlen := congrArg List.length hd
    simp [List.length_drop] at hlen
    omega
  | cons x xs =>
    rw [hd] at h
    obtain ⟨w, hw⟩ := h
    have hx : x = c := by
      simp at hw
      exact hw.1
    rw [hx] at hd
    exact drop_head_mem hk hd

theorem not_infix_append_seam (p : Char) (ps : List Char) (s : List Char) (c : Char)
    (t : List Char) (hs : ¬ (p :: ps) <:+: s) (hc : c ∉ (p :: ps).drop 1)
    (ht : ¬ (p :: ps) <:+: (c :: t)) : ¬ (p :: ps) <:+: (s ++ c :: t) := by
  rintro ⟨u, w, huw⟩
  have hup : u ++ ((p :: ps) ++ w) = s ++ c :: t := by
    rw [← huw]; simp [List.append_assoc]
  have hu2 : (u ++ (p :: ps)) <+: s ++ c :: t := by
    refine ⟨w, ?_⟩
    rw [← huw]
  rcases pre_split hu2 with h1 | ⟨h2, h3⟩
  · -- the occurrence ends inside s
    obtain ⟨w', hw'⟩ := h1
    apply hs
    exact ⟨u, w', by rw [← hw']⟩
  · -- the occurrence crosses or follows the boundary
    have hd : (u ++ (p :: ps)).drop s.length =
        u.drop s.length ++ (p :: ps).drop (s.length - u.length) := by
      simp [List.drop_append_eq_append_drop]
    by_cases hus : s.length ≤ u.length
    · -- the occurrence lies entirely inside c :: t
      apply ht
      obtain ⟨u', hu'⟩ : ∃ u', u = s ++ u' := by
        have := pre_split (l := u) (s := s) (t := c :: t) ⟨(p :: ps) ++ w, hup⟩
        rcases this with hux | ⟨huy, -⟩
        · obtain ⟨z, hz⟩ := hux
          have hlz := congrArg List.length hz
          simp at hlz
          have hznil : z = [] := by
            have : z.length = 0 := by omega
            exact List.eq_nil_of_length_eq_zero this
          subst hznil
          simp at hz
          exact ⟨[], by simp [hz]⟩
        · obtain ⟨z, hz⟩ := huy
          exact ⟨z, hz.symm⟩
      subst hu'
      rw [List.append_assoc] at hup
      have hcc := List.append_cancel_left hup
      exact ⟨u', w, by rw [← hcc]; simp [List.append_assoc]⟩
    · -- the occurrence starts inside s
      have hlt : u.length < s.length := Nat.lt_of_not_le hus
      set k := s.length - u.length with hkdef
      have hk : 0 < k := by omega
      have hdrop : (u ++ (p :: ps)).drop s.length = (p :: ps).drop k := by
        rw [hd]
        have : u.drop s.length = [] := by
          apply List.drop_eq_nil_of_le
          omega
        simp [this]
      by_cases hkp : k < (p :: ps).length
      · rw [hdrop] at h3
        exact hc (seam_head_hit hk hkp h3)
      · -- the occurrence ends at or before the boundary: it lies inside s
        apply hs
        have hul : (u ++ (p :: ps)).length ≤ s.length := by
          simp only [List.length_append]
          omega
        have hu3 : (u ++ (p :: ps)) <+: s := by
          obtain ⟨z, hz⟩ := h2
          have hlz := congrArg List.length hz
          simp only [List.length_append] at hlz hul
          have hznil : z = [] := List.eq_nil_of_length_eq_zero (by omega)
          subst hznil
          simp only [List.append_nil] at hz
          exact ⟨[], by simp [hz]⟩
        obtain ⟨z, hz⟩ := hu3
        exact ⟨u, z, by rw [← hz]⟩

theorem replAll_template (svT icnT Q V N Jt M₁ M₂ M₃ : List Char)
    (hQsv : ¬ ('S' :: svT) <:+: Q)
    (hQicn : ¬ ('I' :: icnT) <:+: Q)
    (hV : 'I' ∉ V)
    (hsp1 : ' ' ∉ svT) (hsp2 : ' ' ∉ icnT) (hSsv : 'S' ∉ svT) (hIicn : 'I' ∉ icnT)
    (hJ : ¬ ('I' :: icnT) <:+: (' ' :: Jt))
    (hPre : ¬ ('S' :: svT) <:+: (' ' :: (Jt ++ ('I' :: icnT) ++ M₁)))
    (hPost : ¬ ('S' :: svT) <:+: (M₂ ++ ('I' :: icnT) ++ M₃))
    (hM₁ : 'I' ∉ M₁) (hM₂ : 'I' ∉ M₂) (hM₃ : ¬ ('I' :: icnT) <:+: M₃) :
    replAll ('I' :: icnT) N (replAll ('S' :: svT) V
      (Q ++ ((' ' :: Jt) ++ ('I' :: icnT) ++ M₁ ++ ('S' :: svT) ++ M₂ ++
        ('I' :: icnT) ++ M₃))) =
    Q ++ (' ' :: Jt) ++ N ++ M₁ ++ V ++ M₂ ++ N ++ M₃ := by
  have hPreQ : ¬ ('S' :: svT) <:+: (Q ++ ' ' :: (Jt ++ ('I' :: icnT) ++ M₁)) :=
    not_infix_append_seam 'S' svT Q ' ' (Jt ++ ('I' :: icnT) ++ M₁) hQsv hsp1 hPre
  have hQJ : ¬ ('I' :: icnT) <:+: (Q ++ ' ' :: Jt) :=
    not_infix_append_seam 'I' icnT Q ' ' Jt hQicn hsp2 hJ
  have step1 : replAll ('S' :: svT) V
      (Q ++ ((' ' :: Jt) ++ ('I' :: icnT) ++ M₁ ++ ('S' :: svT) ++ M₂ ++
        ('I' :: icnT) ++ M₃)) =
      (Q ++ ' ' :: (Jt ++ ('I' :: icnT) ++ M₁)) ++
        (V ++ (M₂ ++ ('I' :: icnT) ++ M₃)) := by
    have e1 : Q ++ ((' ' :: Jt) ++ ('I' :: icnT) ++ M₁ ++ ('S' :: svT) ++ M₂ ++
        ('I' :: icnT) ++ M₃) =
        (Q ++ ' ' :: (Jt ++ ('I' :: icnT) ++ M₁)) ++
          'S' :: (svT ++ (M₂ ++ ('I' :: icnT) ++ M₃)) := by
      simp [List.append_assoc]
    rw [e1, replAll_seam 'S' svT V _ 'S' _ hPreQ hSsv]
    congr 1
    have e2 : 'S' :: (svT ++ (M₂ ++ ('I' :: icnT) ++ M₃)) =
        ('S' :: svT) ++ (M₂ ++ ('I' :: icnT) ++ M₃) := by simp
    rw [e2, replAll_hit, replAll_skip V hPost]
  rw [step1]
  have e3 : (Q ++ ' ' :: (Jt ++ ('I' :: icnT) ++ M₁)) ++
      (V ++ (M₂ ++ ('I' :: icnT) ++ M₃)) =
      (Q ++ ' ' :: Jt) ++ 'I' :: (icnT ++ ((M₁ ++ (V ++ M₂)) ++
        'I' :: (icnT ++ M₃))) := by
    simp [List.append_assoc]
  rw [e3, replAll_seam 'I' icnT N _ 'I' _ hQJ hIicn]
  have e4 : 'I' :: (icnT ++ ((M₁ ++ (V ++ M₂)) ++ 'I' :: (icnT ++ M₃))) =
      ('I' :: icnT) ++ ((M₁ ++ (V ++ M₂)) ++ 'I' :: (icnT ++ M₃)) := by
    simp
  rw [e4, replAll_hit]
  have hs3 : ¬ ('I' :: icnT) <:+: (M₁ ++ (V ++ M₂)) := by
    apply not_infix_of_head_notMem
    simp [List.mem_append, hM₁, hV, hM₂]
  rw [replAll_seam 'I' icnT N _ 'I' _ hs3 hIicn]
  have e5 : 'I' :: (icnT ++ M₃) = ('I' :: icnT) ++ M₃ := by simp
  rw [e5, replAll_hit, replAll_skip N hM₃]
  simp [List.append_assoc]

theorem str_eq_of_data {s t : String} (h : s.toList = t.toList) : s = t := by
  cases s
  cases t
  exact congrArg String.mk h

theorem str_toList_append (s t : String) : (s ++ t).toList = s.toList ++ t.toList :=
  String.data_append s t

theorem goReplaceAll_toList (s old new : String) :
    (goReplaceAll s old new).toList = replAll old.toList new.toList s.toList := rfl

theorem goReplace_template_str (Q N V : String) (Jt M₁ M₂ M₃ : List Char)
    (TEMPL : String)
    (hT : TEMPL.toList = (' ' :: Jt) ++ ('I' :: "NDEXCOLUMNNAME".toList) ++ M₁ ++
      ('S' :: "TATEVALUE".toList) ++ M₂ ++ ('I' :: "NDEXCOLUMNNAME".toList) ++ M₃)
    (h1 : ¬ "STATEVALUE".toList <:+: Q.toList)
    (h2 : ¬ "INDEXCOLUMNNAME".toList <:+: Q.toList)
    (h3 : 'I' ∉ V.toList)
    (hJ : ¬ ('I' :: "NDEXCOLUMNNAME".toList) <:+: (' ' :: Jt))
    (hPre : ¬ ('S' :: "TATEVALUE".toList) <:+:
      (' ' :: (Jt ++ ('I' :: "NDEXCOLUMNNAME".toList) ++ M₁)))
    (hPost : ¬ ('S' :: "TATEVALUE".toList) <:+:
      (M₂ ++ ('I' :: "NDEXCOLUMNNAME".toList) ++ M₃))
    (hM₁ : 'I' ∉ M₁) (hM₂ : 'I' ∉ M₂)
    (hM₃ : ¬ ('I' :: "NDEXCOLUMNNAME".toList) <:+: M₃) :
    (goReplaceAll (goReplaceAll (Q ++ TEMPL) "STATEVALUE" V)
      "INDEXCOLUMNNAME" N).toList =
      Q.toList ++ (' ' :: Jt) ++ N.toList ++ M₁ ++ V.toList ++ M₂ ++ N.toList ++ M₃ := by
  have esv : ("STATEVALUE" : String).toList = 'S' :: "TATEVALUE".toList := rfl
  have eicn : ("INDEXCOLUMNNAME" : String).toList = 'I' :: "NDEXCOLUMNNAME".toList := rfl
  rw [goReplaceAll_toList, goReplaceAll_toList, str_toList_append, hT, esv, eicn]
  exact replAll_template "TATEVALUE".toList "NDEXCOLUMNNAME".toList Q.toList V.toList
    N.toList Jt M₁ M₂ M₃ (esv ▸ h1) (eicn ▸ h2) h3 (by decide) (by decide) (by decide)
    (by decide) hJ hPre hPost hM₁ hM₂ hM₃

theorem rewrittenQuery_eq (q : DBQueries) (state : List (String × String))
    (ht : q.IndexColumnType = "TIMESTAMP" ∨ q.IndexColumnType = "NUMBER")
    (h1 : ¬ "STATEVALUE".toList <:+: q.Query.toList)
    (h2 : ¬ "INDEXCOLUMNNAME".toList <:+: q.Query.toList)
    (h3 : 'I' ∉ (GetState q state).toList) :
    rewrittenQuery q state =
      q.Query ++ (if goContains q.Query "where" then " and " else " where ")
        ++ q.IndexColumnName ++ " > "
        ++ (if q.IndexColumnType = "TIMESTAMP"
            then "\"" ++ GetState q state ++ "\"" else GetState q state)
        ++ " order by " ++ q.IndexColumnName ++ " asc;" := by
  apply str_eq_of_data
  have d1 : (" and " : String).toList = ' ' :: "and ".toList := by decide
  have d1' : (" where " : String).toList = ' ' :: "where ".toList := by decide
  have d2 : (" > \"" : String).toList =
      (" > " : String).toList ++ ("\"" : String).toList := by decide
  have d3 : ("\" order by " : String).toList =
      ("\"" : String).toList ++ (" order by " : String).toList := by decide
  rcases ht with htt | htn
  · by_cases hw : goContains q.Query "where" = true
    · have ha : appendedQuery q = q.Query ++
          " and INDEXCOLUMNNAME > \"STATEVALUE\" order by INDEXCOLUMNNAME asc;" := by
        simp [appendedQuery, htt, hw]
      rw [rewrittenQuery, ha]
      rw [goReplace_template_str q.Query q.IndexColumnName (GetState q state)
        "and ".toList " > \"".toList "\" order by ".toList " asc;".toList _
        (by decide) h1 h2 h3 (by decide) (by decide) (by decide) (by decide)
        (by decide) (by decide)]
      simp [htt, hw, str_toList_append, d1, d2, d3, List.append_assoc]
    · have ha : appendedQuery q = q.Query ++
          " where INDEXCOLUMNNAME > \"STATEVALUE\" order by INDEXCOLUMNNAME asc;" := by
        simp [appendedQuery, htt, hw]
      rw [rewrittenQuery, ha]
      rw [goReplace_template_str q.Query q.IndexColumnName (GetState q state)
        "where ".toList " > \"".toList "\" order by ".toList " asc;".toList _
        (by decide) h1 h2 h3 (by decide) (by decide) (by decide) (by decide)
        (by decide) (by decide)]
      simp [htt, hw, str_toList_append, d1', d2, d3, List.append_assoc]
  · have htt' : q.IndexColumnType ≠ "TIMESTAMP" := by
      rw [htn]; decide
    by_cases hw : goContains q.Query "where" = true
    · have ha : appendedQuery q = q.Query ++
          " and INDEXCOLUMNNAME > STATEVALUE order by INDEXCOLUMNNAME asc;" := by
        simp [appendedQuery, htt', htn, hw]
      rw [rewrittenQuery, ha]
      rw [goReplace_template_str q.Query q.IndexColumnName (GetState q state)
        "and ".toList " > ".toList " order by ".toList " asc;".toList _
        (by decide) h1 h2 h3 (by decide) (by decide) (by decide) (by decide)
        (by decide) (by decide)]
      simp [htt', hw, str_toList_append, d1, List.append_assoc]
    · have ha : appendedQuery q = q.Query ++
          " where INDEXCOLUMNNAME > STATEVALUE order by INDEXCOLUMNNAME asc;" := by
        simp [appendedQuery, htt', htn, hw]
      rw [rewrittenQuery, ha]
      rw [goReplace_template_str q.Query q.IndexColumnName (GetState q state)
        "where ".toList " > ".toList " order by ".toList " asc;".toList _
        (by decide) h1 h2 h3 (by decide) (by decide) (by decide) (by decide)
        (by decide) (by decide)]
      simp [htt', hw, str_toList_append, d1', List.append_assoc]

/-! ### Lemmas about line building, object scanning and the record loop -/

theorem buildLineGo_acc (row : List (Option String)) :
    ∀ line : List String, buildLineGo line row = line ++ buildLineGo [] row := by
  induction row with
  | nil => intro line; simp [buildLineGo]
  | cons c rest ih =>
    intro line
    cases c with
    | none =>
      simp only [buildLineGo]
      exact ih line
    | some v =>
      simp only [buildLineGo, List.nil_append]
      rw [ih (line ++ [v]), ih [v]]
      simp [List.append_assoc]

theorem buildLine_all_some (vals : List String) : buildLine (vals.map some) = vals := by
  induction vals with
  | nil => rfl
  | cons v vs ih =>
    simp only [buildLine, List.map_cons, buildLineGo]
    rw [buildLineGo_acc]
    simpa [buildLine] using congrArg (fun l => [v] ++ l) ih

theorem buildLine_len (row : List (Option String)) :
    (buildLine row).length ≤ row.length := by
  induction row with
  | nil => simp [buildLine, buildLineGo]
  | cons c rest ih =>
    cases c with
    | none =>
      simp only [buildLine, buildLineGo] at ih ⊢
      simp [List.length_cons]
      omega
    | some v =>
      simp only [buildLine, buildLineGo] at ih ⊢
      rw [buildLineGo_acc]
      simp [List.length_cons]
      omega

theorem scanLine_some (cols line : List String) (obj : Obj)
    (h : line.length ≤ cols.length) :
    ∃ o2, scanLineIntoObj cols line obj = some o2 := by
  induction line generalizing cols obj with
  | nil => cases cols <;> exact ⟨obj, rfl⟩
  | cons v vs ih =>
    cases cols with
    | nil => simp at h
    | cons c cs =>
      apply ih cs (minsert obj c v)
      simp only [List.length_cons] at h
      omega

theorem scanLine_keeps (line : List String) :
    ∀ (cols : List String) (obj o2 : Obj) (x : String),
      scanLineIntoObj cols line obj = some o2 → x ∉ cols →
      mfind o2 x = mfind obj x := by
  induction line with
  | nil =>
    intro cols obj o2 x h _
    cases cols <;> · simp only [scanLineIntoObj, Option.some.injEq] at h; rw [← h]
  | cons v vs ih =>
    intro cols obj o2 x h hx
    cases cols with
    | nil => simp [scanLineIntoObj] at h
    | cons c cs =>
      simp only [scanLineIntoObj] at h
      have hxc : x ∉ cs := fun hm => hx (List.mem_cons_of_mem c hm)
      have hcx : c ≠ x := fun he => hx (he ▸ List.mem_cons_self c cs)
      rw [ih cs (minsert obj c v) o2 x h hxc, mfind_minsert_other obj c x v hcx]

theorem scanLine_full_find (line : List String) :
    ∀ (cols : List String) (obj o2 : Obj),
      cols.Nodup → line.length = cols.length →
      scanLineIntoObj cols line obj = some o2 →
      ∀ (k : Nat) (x : String), cols.get? k = some x → mfind o2 x = line.get? k := by
  induction line with
  | nil =>
    intro cols obj o2 _ hlen _ k x hk
    cases cols with
    | nil => simp at hk
    | cons c cs => simp at hlen
  | cons v vs ih =>
    intro cols obj o2 hnd hlen h k x hk
    cases cols with
    | nil => simp at hlen
    | cons c cs =>
      rw [List.nodup_cons] at hnd
      obtain ⟨hc, hcs⟩ := hnd
      simp only [List.length_cons] at hlen
      simp only [scanLineIntoObj] at h
      cases k with
      | zero =>
        simp only [List.get?] at hk ⊢
        obtain rfl : c = x := by injection hk
        rw [scanLine_keeps vs cs (minsert obj c v) o2 c h hc,
          mfind_minsert_self]
      | succ k' =>
        simp only [List.get?] at hk ⊢
        exact ih cs (minsert obj c v) o2 hcs (by omega) h k' x hk

theorem scanFold_some (cols : List String) (lines : List (List String)) (obj : Obj)
    (h : ∀ l ∈ lines, l.length ≤ cols.length) :
    ∃ o2, scanFold cols lines obj = some o2 := by
  induction lines generalizing obj with
  | nil => exact ⟨obj, rfl⟩
  | cons line rest ih =>
    obtain ⟨o1, ho1⟩ := scanLine_some cols line obj (h line (by simp))
    simp only [scanFold, ho1]
    exact ih o1 (fun l hl => h l (by simp [hl]))

theorem scanFold_concat (cols : List String) (l₁ : List (List String))
    (lastLine : List String) (obj objF : Obj)
    (h : scanFold cols (l₁ ++ [lastLine]) obj = some objF) :
    ∃ oMid, scanFold cols l₁ obj = some oMid ∧
      scanLineIntoObj cols lastLine oMid = some objF := by
  induction l₁ generalizing obj with
  | nil =>
    simp only [List.nil_append, scanFold] at h
    cases hsl : scanLineIntoObj cols lastLine obj with
    | none => rw [hsl] at h; simp at h
    | some o2 =>
      rw [hsl] at h
      simp only [scanFold, Option.some.injEq] at h
      exact ⟨obj, rfl, by rw [hsl, h]⟩
  | cons line rest ih =>
    simp only [List.cons_append, scanFold] at h ⊢
    cases hsl : scanLineIntoObj cols line obj with
    | none => rw [hsl] at h; simp at h
    | some o2 =>
      rw [hsl] at h
      exact ih o2 h

theorem recordsLoop_of_scanFold (qid : String) (cols : List String) :
    ∀ (lines : List (List String)) (obj : Obj) (j : Nat) (acc : List (String × Obj))
      (last : String) (objF : Obj),
      scanFold cols lines obj = some objF → lines ≠ [] →
      ∃ recs last', recordsLoop qid cols lines obj j acc last = some (recs, last') ∧
        mfind recs last' = some objF := by
  intro lines
  induction lines with
  | nil => intro obj j acc last objF _ hne; exact absurd rfl hne
  | cons line rest ih =>
    intro obj j acc last objF hsf _
    cases hsl : scanLineIntoObj cols line obj with
    | none => rw [scanFold, hsl] at hsf; simp at hsf
    | some o2 =>
      rw [scanFold, hsl] at hsf
      simp only [recordsLoop, hsl]
      by_cases hrest : rest = []
      · subst hrest
        simp only [scanFold, Option.some.injEq] at hsf
        refine ⟨minsert acc (qid ++ "_record" ++ toString (j + 1)) o2,
          qid ++ "_record" ++ toString (j + 1), rfl, ?_⟩
        rw [mfind_minsert_self, hsf]
      · exact ih o2 (j + 1) _ _ objF hsf hrest

theorem recordsLoop_stable (qid : String) (cols : List String) :
    ∀ (lines : List (List String)) (obj : Obj) (j : Nat) (acc : List (String × Obj))
      (last : String) (recs : List (String × Obj)) (last' x : String),
      recordsLoop qid cols lines obj j acc last = some (recs, last') →
      (mfind acc x).isSome → (mfind recs x).isSome := by
  intro lines
  induction lines with
  | nil =>
    intro obj j acc last recs last' x h hx
    simp only [recordsLoop, Option.some.injEq, Prod.mk.injEq] at h
    obtain ⟨rfl, rfl⟩ := h
    exact hx
  | cons line rest ih =>
    intro obj j acc last recs last' x h hx
    cases hsl : scanLineIntoObj cols line obj with
    | none => rw [recordsLoop, hsl] at h; simp at h
    | some o2 =>
      rw [recordsLoop, hsl] at h
      exact ih o2 (j + 1) _ _ recs last' x h
        (mfind_isSome_minsert acc (qid ++ "_record" ++ toString (j + 1)) x o2 hx)

theorem recordsLoop_keys (qid : String) (cols : List String) :
    ∀ (lines : List (List String)) (obj : Obj) (j : Nat) (acc : List (String × Obj))
      (last : String) (recs : List (String × Obj)) (last' : String),
      recordsLoop qid cols lines obj j acc last = some (recs, last') →
      ∀ i, i < lines.length →
        (mfind recs (qid ++ "_record" ++ toString (j + i + 1))).isSome := by
  intro lines
  induction lines with
  | nil =>
    intro obj j acc last recs last' _ i hi
    simp at hi
  | cons line rest ih =>
    intro obj j acc last recs last' h i hi
    cases hsl : scanLineIntoObj cols line obj with
    | none => rw [recordsLoop, hsl] at h; simp at h
    | some o2 =>
      rw [recordsLoop, hsl] at h
      cases i with
      | zero =>
        have hpres : (mfind (minsert acc (qid ++ "_record" ++ toString (j + 1)) o2)
            (qid ++ "_record" ++ toString (j + 1))).isSome := by
          rw [mfind_minsert_self]
          rfl
        have hst := recordsLoop_stable qid cols rest o2 (j + 1) _ _ recs last' _ h hpres
        simpa using hst
      | succ i' =>
        simp only [List.length_cons] at hi
        have hkeep := ih o2 (j + 1) _ _ recs last' h i' (by omega)
        have harith : j + 1 + i' + 1 = j + (i' + 1) + 1 := by omega
        rwa [harith] at hkeep

theorem map_buildLine_some (rows : List (List String)) :
    (rows.map (fun r => r.map some)).map buildLine = rows := by
  induction rows with
  | nil => rfl
  | cons r rest ih => simp [buildLine_all_some, ih]

theorem getRecords_cursor_run
    (db : String → DBResult) (q : DBQueries) (state : List (String × String))
    (cols : List String) (initRows : List (List String)) (lastRow : List String)
    (k : Nat) (v : String)
    (hq : (goTrim q.Query).length ≠ 0)
    (hn : (goTrim q.IndexColumnName).length ≠ 0)
    (hty : q.IndexColumnType = "TIMESTAMP" ∨ q.IndexColumnType = "NUMBER")
    (hdb : db (rewrittenQuery q state) =
      { execErr := none, columnsErr := none, columns := cols,
        rows := (initRows ++ [lastRow]).map (fun r => r.map some),
        scanErr := none, rowsErr := none })
    (hlens : ∀ r ∈ initRows ++ [lastRow], r.length = cols.length)
    (hnd : cols.Nodup)
    (hk : cols.get? k = some q.IndexColumnName)
    (hv : lastRow.get? k = some v) :
    ∃ r recs, getRecords db q state = some r ∧
      r.records = some recs ∧ recs ≠ [] ∧
      r.err = none ∧
      r.dbq = { q with Query := rewrittenQuery q state } ∧
      r.state = SaveState q v state ∧
      Ev.stateWrite q.QueryId v ∈ r.trace ∧
      Ev.execQuery (rewrittenQuery q state) ∈ r.trace ∧
      (∀ s, Ev.execQuery s ∈ r.trace → s = rewrittenQuery q state) ∧
      Ev.deliver ∉ r.trace := by
  have hty3 : ¬ (goTrim q.IndexColumnType).length = 0 := by
    rcases hty with h | h <;> rw [h] <;> decide
  have hty4 : ¬ (q.IndexColumnType ≠ "TIMESTAMP" ∧ q.IndexColumnType ≠ "NUMBER") := by
    rcases hty with h | h <;> simp [h]
  -- run the record-building pipeline on the clean driver result
  obtain ⟨objF, hsf⟩ := scanFold_some cols (initRows ++ [lastRow]) []
    (fun l hl => le_of_eq (hlens l hl))
  obtain ⟨oMid, hmid, hscan⟩ := scanFold_concat cols initRows lastRow [] objF hsf
  have hlook : mfind objF q.IndexColumnName = some v := by
    have := scanLine_full_find lastRow cols oMid objF hnd
      (hlens lastRow (by simp)) hscan k q.IndexColumnName hk
    rw [this, hv]
  obtain ⟨recs, last', hloop, hfind⟩ := recordsLoop_of_scanFold q.QueryId cols
    (initRows ++ [lastRow]) [] 0 [] "" objF hsf (by simp)
  have hrne : recs ≠ [] := mfind_ne_nil hfind
  have hlen0 : ¬ recs.length = 0 := by
    intro h0
    exact hrne (List.length_eq_zero.mp h0)
  have hexec : ExecuteQueryandFetchRecords db (rewrittenQuery q state) q.QueryId =
      some (some recs, last', none, [Ev.execQuery (rewrittenQuery q state)]) := by
    simp only [ExecuteQueryandFetchRecords, hdb, Option.isSome_none,
      Bool.false_eq_true, if_false, map_buildLine_some, hloop]
  have hget : getRecords db q state = some
      { records := some recs, err := none,
        dbq := { q with Query := rewrittenQuery q state },
        state := SaveState q v state,
        trace := [Ev.logInfo "IndexColumnName specified, fetching records incrementally",
                  Ev.stateRead q.QueryId,
                  Ev.execQuery (rewrittenQuery q state),
                  Ev.logInfo "New database records found for query",
                  Ev.stateWrite q.QueryId v] } := by
    simp only [getRecords]
    rw [if_neg hq, if_neg hn, if_neg hty3, if_neg hty4]
    simp only [hexec, Option.getD_some, Option.isSome_none, Bool.false_eq_true,
      if_false, hlen0, hfind, hlook, List.cons_append, List.nil_append]
  refine ⟨_, recs, hget, rfl, hrne, rfl, rfl, rfl, ?_, ?_, ?_, ?_⟩
  · simp
  · simp
  · intro s hs
    simp only [List.mem_cons, List.mem_singleton] at hs
    rcases hs with h | h | h | h | h <;> simp_all
  · simp

theorem recordsLoop_total (qid : String) (cols : List String) :
    ∀ (lines : List (List String)) (obj : Obj) (j : Nat) (acc : List (String × Obj))
      (last : String),
      (∀ l ∈ lines, l.length ≤ cols.length) →
      ∃ recs last', recordsLoop qid cols lines obj j acc last = some (recs, last') := by
  intro lines
  induction lines with
  | nil => intro obj j acc last _; exact ⟨acc, last, rfl⟩
  | cons line rest ih =>
    intro obj j acc last h
    obtain ⟨o2, ho2⟩ := scanLine_some cols line obj (h line (by simp))
    simp only [recordsLoop, ho2]
    exact ih o2 (j + 1) _ _ (fun l hl => h l (by simp [hl]))

theorem getRecords_snapshot_run
    (db : String → DBResult) (q : DBQueries) (state : List (String × String))
    (res : DBResult)
    (hq : (goTrim q.Query).length ≠ 0)
    (hn : (goTrim q.IndexColumnName).length = 0)
    (hdb : db q.Query = res)
    (he : res.execErr = none) (hce : res.columnsErr = none)
    (hse : res.scanErr = none) (hre : res.rowsErr = none)
    (hlens : ∀ r ∈ res.rows, r.length ≤ res.columns.length) :
    ∃ r recs, getRecords db q state = some r ∧
      r.records = some recs ∧
      r.err = none ∧
      r.dbq = q ∧
      r.state = state ∧
      Ev.execQuery q.Query ∈ r.trace ∧
      (∀ s, Ev.execQuery s ∈ r.trace → s = q.Query) ∧
      (∀ a b, Ev.stateWrite a b ∉ r.trace) ∧
      (∀ a, Ev.stateRead a ∉ r.trace) ∧
      (∀ i, i < res.rows.length →
        (mfind recs (q.QueryId ++ "_record" ++ toString (i + 1))).isSome) ∧
      getRecords db r.dbq r.state = getRecords db q state := by
  have hl2 : ∀ l ∈ res.rows.map buildLine, l.length ≤ res.columns.length := by
    intro l hl
    obtain ⟨row, hrow, rfl⟩ := List.mem_map.mp hl
    exact le_trans (buildLine_len row) (hlens row hrow)
  obtain ⟨recs, last', hloop⟩ :=
    recordsLoop_total q.QueryId res.columns (res.rows.map buildLine) [] 0 [] "" hl2
  have hexec : ExecuteQueryandFetchRecords db q.Query q.QueryId =
      some (some recs, last', none, [Ev.execQuery q.Query]) := by
    simp only [ExecuteQueryandFetchRecords, hdb, he, hce, hse, hre,
      Option.isSome_none, Bool.false_eq_true, if_false, hloop]
  have hkeys : ∀ i, i < res.rows.length →
      (mfind recs (q.QueryId ++ "_record" ++ toString (i + 1))).isSome := by
    intro i hi
    have hlen : (res.rows.map buildLine).length = res.rows.length := by simp
    have hk := recordsLoop_keys q.QueryId res.columns (res.rows.map buildLine)
      [] 0 [] "" recs last' hloop i (by rw [hlen]; exact hi)
    simpa using hk
  by_cases hL : recs.length = 0
  · have hget : getRecords db q state = some
        { records := some recs, err := none, dbq := q, state := state,
          trace := [Ev.logInfo
              "IndexColumnName missing from collector config file, so fetching all records",
            Ev.execQuery q.Query,
            Ev.logInfo "No database records found for query"] } := by
      simp only [getRecords]
      rw [if_neg hq, if_pos hn]
      simp only [hexec, Option.getD_some, Option.isSome_none, Bool.false_eq_true,
        if_false, hL, if_true, List.cons_append, List.nil_append]
    refine ⟨_, recs, hget, rfl, rfl, rfl, rfl, ?_, ?_, ?_, ?_, hkeys, rfl⟩
    · simp
    · intro s hs
      simp only [List.mem_cons, List.mem_singleton] at hs
      rcases hs with h | h | h <;> simp_all
    · intro a b
      simp
    · intro a
      simp
  · have hget : getRecords db q state = some
        { records := some recs, err := none, dbq := q, state := state,
          trace := [Ev.logInfo
              "IndexColumnName missing from collector config file, so fetching all records",
            Ev.execQuery q.Query,
            Ev.logInfo "Database records found for query"] } := by
      simp only [getRecords]
      rw [if_neg hq, if_pos hn]
      simp only [hexec, Option.getD_some, Option.isSome_none, Bool.false_eq_true,
        if_false, hL, List.cons_append, List.nil_append]
    refine ⟨_, recs, hget, rfl, rfl, rfl, rfl, ?_, ?_, ?_, ?_, hkeys, rfl⟩
    · simp
    · intro s hs
      simp only [List.mem_cons, List.mem_singleton] at hs
      rcases hs with h | h | h <;> simp_all
    · intro a b
      simp
    · intro a
      simp

theorem getRecords_badcursor_skip
    (db : String → DBResult) (q : DBQueries) (state : List (String × String))
    (hq : (goTrim q.Query).length ≠ 0)
    (hn : (goTrim q.IndexColumnName).length ≠ 0)
    (hbad : (goTrim q.IndexColumnType).length = 0 ∨
      (q.IndexColumnType ≠ "TIMESTAMP" ∧ q.IndexColumnType ≠ "NUMBER")) :
    ∃ msgs, getRecords db q state = some
        { records := none, err := none, dbq := q, state := state, trace := msgs } ∧
      msgs ≠ [] ∧ (∀ e ∈ msgs, ∃ m, e = Ev.logError m) ∧
      (∀ s, Ev.execQuery s ∉ msgs) ∧ (∀ a b, Ev.stateWrite a b ∉ msgs) := by
  by_cases h3 : (goTrim q.IndexColumnType).length = 0
  · refine ⟨[Ev.logError
        "IndexColummType should be specified with a IndexColumnName for a query",
      Ev.logError "Supported values are TIMESTAMP or NUMBER"], ?_, ?_, ?_, ?_, ?_⟩
    · simp only [getRecords]
      rw [if_neg hq, if_neg hn, if_pos h3]
    · simp
    · intro e he
      simp only [List.mem_cons, List.not_mem_nil, or_false] at he
      rcases he with rfl | rfl
      · exact ⟨_, rfl⟩
      · exact ⟨_, rfl⟩
    · intro s
      simp
    · intro a b
      simp
  · have h4 : q.IndexColumnType ≠ "TIMESTAMP" ∧ q.IndexColumnType ≠ "NUMBER" := by
      rcases hbad with h | h
      · exact absurd h h3
      · exact h
    refine ⟨[Ev.logError
        "Configured non supported Indexcolummtype, supported values are TIMESTAMP or NUMBER",
      Ev.logError "Check collector configuration file"], ?_, ?_, ?_, ?_, ?_⟩
    · simp only [getRecords]
      rw [if_neg hq, if_neg hn, if_neg h3, if_pos h4]
    · simp
    · intro e he
      simp only [List.mem_cons, List.not_mem_nil, or_false] at he
      rcases he with rfl | rfl
      · exact ⟨_, rfl⟩
      · exact ⟨_, rfl⟩
    · intro s
      simp
    · intro a b
      simp

theorem exec_trace_mem (db : String → DBResult) (query qid : String)
    (out : Option (List (String × Obj)) × String × Option String × List Ev)
    (h : ExecuteQueryandFetchRecords db query qid = some out) :
    Ev.execQuery query ∈ out.2.2.2 := by
  simp only [ExecuteQueryandFetchRecords] at h
  split at h
  · cases h; simp
  · split at h
    · cases h; simp
    · split at h
      · cases h; simp
      · split at h
        · cases h; simp
        · cases hrl : recordsLoop qid (db query).columns ((db query).rows.map buildLine)
              [] 0 [] "" with
          | none =>
            simp only [hrl] at h
            exact Option.noConfusion h
          | some pr =>
            obtain ⟨a, b⟩ := pr
            simp only [hrl] at h
            cases h
            simp

theorem exec_err_none (db : String → DBResult) (query qid : String)
    (recs : Option (List (String × Obj))) (last : String) (e : Option String)
    (tr : List Ev)
    (h : ExecuteQueryandFetchRecords db query qid = some (recs, last, e, tr)) :
    e = none := by
  simp only [ExecuteQueryandFetchRecords] at h
  split at h
  · cases h; rfl
  · split at h
    · cases h; rfl
    · split at h
      · cases h; rfl
      · split at h
        · cases h; rfl
        · cases hrl : recordsLoop qid (db query).columns ((db query).rows.map buildLine)
              [] 0 [] "" with
          | none =>
            simp only [hrl] at h
            exact Option.noConfusion h
          | some pr =>
            obtain ⟨a, b⟩ := pr
            simp only [hrl] at h
            cases h
            rfl

theorem getRecords_cursor_shape
    (db : String → DBResult) (q : DBQueries) (state : List (String × String))
    (hq : (goTrim q.Query).length ≠ 0)
    (hn : (goTrim q.IndexColumnName).length ≠ 0)
    (hty : q.IndexColumnType = "TIMESTAMP" ∨ q.IndexColumnType = "NUMBER") :
    ∀ r, getRecords db q state = some r →
      r.dbq.Query = rewrittenQuery q state ∧
      Ev.execQuery (rewrittenQuery q state) ∈ r.trace := by
  have hty3 : ¬ (goTrim q.IndexColumnType).length = 0 := by
    rcases hty with h | h <;> rw [h] <;> decide
  have hty4 : ¬ (q.IndexColumnType ≠ "TIMESTAMP" ∧ q.IndexColumnType ≠ "NUMBER") := by
    rcases hty with h | h <;> simp [h]
  intro r hr
  simp only [getRecords] at hr
  rw [if_neg hq, if_neg hn, if_neg hty3, if_neg hty4] at hr
  cases hex : ExecuteQueryandFetchRecords db (rewrittenQuery q state) q.QueryId with
  | none =>
    simp only [hex] at hr
    exact Option.noConfusion hr
  | some out =>
    obtain ⟨recs, last, e, tr⟩ := out
    have hmem : Ev.execQuery (rewrittenQuery q state) ∈ tr :=
      exec_trace_mem db (rewrittenQuery q state) q.QueryId _ hex
    simp only [hex] at hr
    split at hr
    · cases hr; exact ⟨rfl, by simp [hmem]⟩
    · split at hr
      · cases hr; exact ⟨rfl, by simp [hmem]⟩
      · cases hm : mfind (recs.getD []) last with
        | none =>
          simp only [hm] at hr
          cases hr
          exact ⟨rfl, by simp [hmem]⟩
        | some lastObj =>
          simp only [hm] at hr
          cases hm2 : mfind lastObj q.IndexColumnName with
          | none =>
            simp only [hm2] at hr
            exact Option.noConfusion hr
          | some v =>
            simp only [hm2] at hr
            cases hr
            exact ⟨rfl, by simp [hmem]⟩

/-! ### Claim theorems -/

/-- Claim C1, counterexample.  The claim says the per-query checkpoint is
mutated only after the batch has been accepted downstream, with no write
between fetching rows and confirmed delivery.  `getRecords` performs no
delivery (its trace has no `Ev.deliver` event), yet one call on the spec's own
`Q2` example mutates the checkpoint map from `[]` to `[("Q2", "7")]`: the
write happens between the fetch and any delivery, and a delivery failure would
find it already advanced. -/
theorem C1_counterexample :
    getRecords exDb exQ2 [] = some c1res ∧
    c1res.state ≠ ([] : List (String × String)) ∧
    Ev.deliver ∉ c1res.trace := by decide

/-- Claim C1, amended: for a cursor-column query with a non-empty result set,
the checkpoint is written by `getRecords` itself — immediately after decoding
the last encoded record — before the batch ever reaches the downstream
consumer (no delivery event occurs inside the call), so a later delivery
failure leaves the advanced checkpoint in place. -/
theorem C1_amended_checkpoint_written_before_delivery
    (db : String → DBResult) (q : DBQueries) (state : List (String × String))
    (cols : List String) (initRows : List (List String)) (lastRow : List String)
    (k : Nat) (v : String)
    (hq : (goTrim q.Query).length ≠ 0)
    (hn : (goTrim q.IndexColumnName).length ≠ 0)
    (hty : q.IndexColumnType = "TIMESTAMP" ∨ q.IndexColumnType = "NUMBER")
    (hdb : db (rewrittenQuery q state) =
      { execErr := none, columnsErr := none, columns := cols,
        rows := (initRows ++ [lastRow]).map (fun r => r.map some),
        scanErr := none, rowsErr := none })
    (hlens : ∀ r ∈ initRows ++ [lastRow], r.length = cols.length)
    (hnd : cols.Nodup)
    (hk : cols.get? k = some q.IndexColumnName)
    (hv : lastRow.get? k = some v) :
    ∃ r, getRecords db q state = some r ∧
      r.state = SaveState q v state ∧
      Ev.stateWrite q.QueryId v ∈ r.trace ∧
      Ev.deliver ∉ r.trace := by
  obtain ⟨r, recs, hget, _, _, _, _, hstate, hsw, _, _, hdel⟩ :=
    getRecords_cursor_run db q state cols initRows lastRow k v hq hn hty hdb
      hlens hnd hk hv
  exact ⟨r, hget, hstate, hsw, hdel⟩

/-- Witness for the amended C1 theorem at the spec's `Q2` example. -/
theorem C1_witness :
    ∃ r, getRecords exDb exQ2 [] = some r ∧
      r.state = SaveState exQ2 "7" [] ∧
      Ev.stateWrite exQ2.QueryId "7" ∈ r.trace ∧
      Ev.deliver ∉ r.trace :=
  C1_amended_checkpoint_written_before_delivery exDb exQ2 [] exColumns
    [["4", "d001"]] ["7", "d002"] 0 "7" (by decide) (by decide) (Or.inr rfl)
    (by decide) (by decide) (by decide) (by decide) (by decide)

/-- Claim C2: for every QuerySpec with a non-empty cursor column and cursor
type TIMESTAMP or NUMBER, `getRecords` rewrites the query by appending the
trailing predicate `cursor > value` — joined with `and` when the original
query text already contains the filter keyword (the code's check is
`strings.Contains(query, "where")`) and with `where` otherwise — followed by
`order by cursor asc;`, where the value is the current checkpoint (or the
configured initial value when no checkpoint entry exists), double-quoted for
TIMESTAMP cursors and unquoted for NUMBER cursors; the executed query (and the
stored query text) is exactly this rewrite.  The placeholder-cleanliness
hypotheses exclude query texts or values containing the literal placeholder
material. -/
theorem C2_query_rewrite
    (db : String → DBResult) (q : DBQueries) (state : List (String × String))
    (hq : (goTrim q.Query).length ≠ 0)
    (hn : (goTrim q.IndexColumnName).length ≠ 0)
    (hty : q.IndexColumnType = "TIMESTAMP" ∨ q.IndexColumnType = "NUMBER")
    (h1 : ¬ "STATEVALUE".toList <:+: q.Query.toList)
    (h2 : ¬ "INDEXCOLUMNNAME".toList <:+: q.Query.toList)
    (h3 : 'I' ∉ ((mfind state q.QueryId).getD q.InitialIndexColumnStartValue).toList) :
    rewrittenQuery q state =
      q.Query ++ (if goContains q.Query "where" then " and " else " where ")
        ++ q.IndexColumnName ++ " > "
        ++ (if q.IndexColumnType = "TIMESTAMP"
            then "\"" ++ (mfind state q.QueryId).getD q.InitialIndexColumnStartValue ++ "\""
            else (mfind state q.QueryId).getD q.InitialIndexColumnStartValue)
        ++ " order by " ++ q.IndexColumnName ++ " asc;" ∧
    (∀ r, getRecords db q state = some r →
      r.dbq.Query = rewrittenQuery q state ∧
      Ev.execQuery (rewrittenQuery q state) ∈ r.trace) := by
  constructor
  · exact rewrittenQuery_eq q state hty h1 h2 h3
  · exact getRecords_cursor_shape db q state hq hn hty

/-- Witness for C2 at the spec's `Q2` example: the rewrite is
`Select * from dept_manager where emp_no > 3 order by emp_no asc;`. -/
theorem C2_witness :
    rewrittenQuery exQ2 [] =
      exQ2.Query ++ (if goContains exQ2.Query "where" then " and " else " where ")
        ++ exQ2.IndexColumnName ++ " > "
        ++ (if exQ2.IndexColumnType = "TIMESTAMP"
            then "\"" ++ (mfind ([] : List (String × String)) exQ2.QueryId).getD
              exQ2.InitialIndexColumnStartValue ++ "\""
            else (mfind ([] : List (String × String)) exQ2.QueryId).getD
              exQ2.InitialIndexColumnStartValue)
        ++ " order by " ++ exQ2.IndexColumnName ++ " asc;" :=
  (C2_query_rewrite exDb exQ2 [] (by decide) (by decide) (Or.inr rfl)
    (by decide) (by decide) (by decide)).1

/-- Claim C3: whenever a cursor-column query returns one or more rows (the
hypotheses describe a clean result set of full-width, NULL-free rows with
`cols.get? k` locating the cursor column and `v` the cursor value of the last
row in fetch order), the checkpoint saved by the call is exactly `v`, the
cursor-column field carried by the last encoded record. -/
theorem C3_checkpoint_last_row
    (db : String → DBResult) (q : DBQueries) (state : List (String × String))
    (cols : List String) (initRows : List (List String)) (lastRow : List String)
    (k : Nat) (v : String)
    (hq : (goTrim q.Query).length ≠ 0)
    (hn : (goTrim q.IndexColumnName).length ≠ 0)
    (hty : q.IndexColumnType = "TIMESTAMP" ∨ q.IndexColumnType = "NUMBER")
    (hdb : db (rewrittenQuery q state) =
      { execErr := none, columnsErr := none, columns := cols,
        rows := (initRows ++ [lastRow]).map (fun r => r.map some),
        scanErr := none, rowsErr := none })
    (hlens : ∀ r ∈ initRows ++ [lastRow], r.length = cols.length)
    (hnd : cols.Nodup)
    (hk : cols.get? k = some q.IndexColumnName)
    (hv : lastRow.get? k = some v) :
    (getRecords db q state).map GRes.state = some (SaveState q v state) := by
  obtain ⟨r, recs, hget, _, _, _, _, hstate, _, _, _, _⟩ :=
    getRecords_cursor_run db q state cols initRows lastRow k v hq hn hty hdb
      hlens hnd hk hv
  simp [hget, hstate]

/-- Witness for C3: rows with `emp_no` 4 and 7 advance the `Q2` checkpoint to
`"7"`. -/
theorem C3_witness :
    (getRecords exDb exQ2 []).map GRes.state = some (SaveState exQ2 "7" []) :=
  C3_checkpoint_last_row exDb exQ2 [] exColumns [["4", "d001"]] ["7", "d002"]
    0 "7" (by decide) (by decide) (Or.inr rfl) (by decide) (by decide)
    (by decide) (by decide) (by decide)

/-- Claim C4 (code bug): `getRecords` receives the QuerySpec by pointer and
mutates its `Query` field in place: after the spec's `Q2` example call the
stored query text holds the fully substituted rewrite instead of the
originally configured text, so the next tick does not start the rewrite from
the original query (it would append a second predicate to an already
rewritten, semicolon-terminated statement). -/
theorem C4_query_mutated_in_place :
    getRecords exDb exQ2 [] = some c1res ∧
    c1res.dbq.Query =
      "Select * from dept_manager where emp_no > 3 order by emp_no asc;" ∧
    exQ2.Query = "Select * from dept_manager" ∧
    c1res.dbq.Query ≠ exQ2.Query := by decide

/-- Claim C5 (code bug): a NULL column value is dropped from the record
instead of appearing as the `"NULL"` sentinel the code assigns but never
appends: for the single row `(NULL, "x")` under columns `a, b`, the encoded
record is `{"a": "x"}` — the later column's value shifts onto the NULL
column's name and column `b` disappears — rather than the intended
`{"a": "NULL", "b": "x"}`. -/
theorem C5_null_dropped_not_sentinel :
    ExecuteQueryandFetchRecords exDb5 "Select * from t" "Q" =
      some (some [("Q_record1", [("a", "x")])], "Q_record1", none,
        [Ev.execQuery "Select * from t"]) ∧
    ([("a", "x")] : Obj) ≠ [("a", "NULL"), ("b", "x")] := ⟨rfl, by decide⟩

/-- Claim C6, counterexample: a QuerySpec declaring a cursor column with no
cursor type is handled during `getRecords` by logging two errors and skipping
the query for that tick (nil record map, nil error, nothing executed), which
contradicts the claim that this situation is surfaced only as a fatal startup
error and is not handled per tick inside `getRecords`. -/
theorem C6_counterexample :
    getRecords exDb dbqBadC6 [] = some
      { records := none, err := none, dbq := dbqBadC6, state := [],
        trace := [Ev.logError
            "IndexColummType should be specified with a IndexColumnName for a query",
          Ev.logError "Supported values are TIMESTAMP or NUMBER"] } := by decide

/-- Claim C6, amended: a cursor column without a cursor type, or with an
unsupported cursor type, is handled per tick inside `getRecords`: the call
logs error events only, executes no query, writes no checkpoint, and returns a
nil record map with a nil error (the query is skipped for that tick rather
than failing startup). -/
theorem C6_amended_per_tick_skip
    (db : String → DBResult) (q : DBQueries) (state : List (String × String))
    (hq : (goTrim q.Query).length ≠ 0)
    (hn : (goTrim q.IndexColumnName).length ≠ 0)
    (hbad : (goTrim q.IndexColumnType).length = 0 ∨
      (q.IndexColumnType ≠ "TIMESTAMP" ∧ q.IndexColumnType ≠ "NUMBER")) :
    ∃ msgs, getRecords db q state = some
        { records := none, err := none, dbq := q, state := state, trace := msgs } ∧
      msgs ≠ [] ∧ (∀ e ∈ msgs, ∃ m, e = Ev.logError m) ∧
      (∀ s, Ev.execQuery s ∉ msgs) ∧ (∀ a b, Ev.stateWrite a b ∉ msgs) :=
  getRecords_badcursor_skip db q state hq hn hbad

/-- Witness for the amended C6 theorem at a concrete misconfigured QuerySpec. -/
theorem C6_witness :
    ∃ msgs, getRecords exDb dbqBadC6 [] = some
        { records := none, err := none, dbq := dbqBadC6, state := [],
          trace := msgs } ∧
      msgs ≠ [] ∧ (∀ e ∈ msgs, ∃ m, e = Ev.logError m) ∧
      (∀ s, Ev.execQuery s ∉ msgs) ∧ (∀ a b, Ev.stateWrite a b ∉ msgs) :=
  C6_amended_per_tick_skip exDb dbqBadC6 [] (by decide) (by decide)
    (Or.inl (by decide))

/-- Claim C7: a QuerySpec without a cursor column runs the configured query
text verbatim (the only executed query in the trace is `q.Query`), never reads
or writes checkpoint state, leaves the QuerySpec and the checkpoint map
unchanged, encodes a record for every row of the result set, and — since the
call leaves its inputs unchanged — a second consecutive tick over the
unchanged source is the same computation and returns the same full row set. -/
theorem C7_snapshot_verbatim
    (db : String → DBResult) (q : DBQueries) (state : List (String × String))
    (res : DBResult)
    (hq : (goTrim q.Query).length ≠ 0)
    (hn : (goTrim q.IndexColumnName).length = 0)
    (hdb : db q.Query = res)
    (he : res.execErr = none) (hce : res.columnsErr = none)
    (hse : res.scanErr = none) (hre : res.rowsErr = none)
    (hlens : ∀ r ∈ res.rows, r.length ≤ res.columns.length) :
    ∃ r recs, getRecords db q state = some r ∧
      r.records = some recs ∧
      r.err = none ∧
      r.dbq = q ∧
      r.state = state ∧
      Ev.execQuery q.Query ∈ r.trace ∧
      (∀ s, Ev.execQuery s ∈ r.trace → s = q.Query) ∧
      (∀ a b, Ev.stateWrite a b ∉ r.trace) ∧
      (∀ a, Ev.stateRead a ∉ r.trace) ∧
      (∀ i, i < res.rows.length →
        (mfind recs (q.QueryId ++ "_record" ++ toString (i + 1))).isSome) ∧
      getRecords db r.dbq r.state = getRecords db q state :=
  getRecords_snapshot_run db q state res hq hn hdb he hce hse hre hlens

/-- Witness for C7 at the spec's `Q1` example over a two-row `departments`
table. -/
theorem C7_witness :
    ∃ r recs, getRecords exDb7 exQ1 [] = some r ∧
      r.records = some recs ∧
      r.err = none ∧
      r.dbq = exQ1 ∧
      r.state = [] ∧
      Ev.execQuery exQ1.Query ∈ r.trace ∧
      (∀ s, Ev.execQuery s ∈ r.trace → s = exQ1.Query) ∧
      (∀ a b, Ev.stateWrite a b ∉ r.trace) ∧
      (∀ a, Ev.stateRead a ∉ r.trace) ∧
      (∀ i, i < exDb7Res.rows.length →
        (mfind recs (exQ1.QueryId ++ "_record" ++ toString (i + 1))).isSome) ∧
      getRecords exDb7 r.dbq r.state = getRecords exDb7 exQ1 [] :=
  C7_snapshot_verbatim exDb7 exQ1 [] exDb7Res (by decide) (by decide) rfl rfl
    rfl rfl rfl (by decide)

/-- Claim C8, counterexample: in `encrypted` mode with an unreadable key file
and a failing decryption, `newMySQLClient` does not fail with
`SecretUnavailable` or `DecryptionFailed`: it logs both problems and proceeds
to build the connection profile with the empty-string password the failed
decryption returned — exactly the silently defaulted password the claim rules
out. -/
theorem C8_counterexample :
    (newMySQLClient confEnc failOracle).1.Passwd = "" ∧
    (newMySQLClient confEnc failOracle).1.Addr = "localhost:3306" ∧
    (newMySQLClient confEnc failOracle).2 =
      [Ev.logError "error in reading encryption secret from file",
       Ev.logError "error decrypting your encrypted text"] := by decide

/-- Claim C8, amended: `newMySQLClient` never fails: in `encrypted` mode the
password placed in the connection profile is whatever string the decryption
call returned (its Go zero value `""` on failure), and a failing key-file read
or decryption is only logged. -/
theorem C8_amended_silent_default (conf : Config) (oracle : CredOracles)
    (henc : conf.PasswordType = "encrypted")
    (hmode : conf.AuthenticationMode ≠ "IAMRDSAuth") :
    (newMySQLClient conf oracle).1.Passwd =
      (oracle.Decrypt conf.Password oracle.readMySecret.val).val ∧
    (oracle.readMySecret.err.isSome →
      Ev.logError "error in reading encryption secret from file"
        ∈ (newMySQLClient conf oracle).2) ∧
    ((oracle.Decrypt conf.Password oracle.readMySecret.val).err.isSome →
      Ev.logError "error decrypting your encrypted text"
        ∈ (newMySQLClient conf oracle).2) := by
  have hcond1 : ¬ ((conf.PasswordType.length = 0 ∨ conf.PasswordType = "plaintext")
      ∧ conf.EncryptSecretPath.length ≠ 0) := by
    rw [henc]
    rintro ⟨h | h, -⟩ <;> revert h <;> decide
  have hmain : newMySQLClient conf oracle =
      ({ User := conf.Username,
         Passwd := (oracle.Decrypt conf.Password oracle.readMySecret.val).val,
         Net := conf.Transport, Addr := conf.DBHost ++ ":" ++ conf.DBPort,
         DBName := conf.Database,
         AllowNativePasswords := conf.AllowNativePasswords,
         TLSConfig := "", AllowCleartextPasswords := false },
       (if oracle.readMySecret.err.isSome then
          [Ev.logError "error in reading encryption secret from file"] else [])
        ++ (if (oracle.Decrypt conf.Password oracle.readMySecret.val).err.isSome then
          [Ev.logError "error decrypting your encrypted text"] else [])) := by
    simp only [newMySQLClient]
    rw [if_neg hcond1, if_pos henc, if_neg hmode]
    simp
  refine ⟨?_, ?_, ?_⟩
  · rw [hmain]
  · intro hrs
    rw [hmain]
    by_cases hd : (oracle.Decrypt conf.Password oracle.readMySecret.val).err.isSome <;>
      simp [hrs, hd]
  · intro hd
    rw [hmain]
    by_cases hrs : oracle.readMySecret.err.isSome <;> simp [hrs, hd]

/-- Witness for the amended C8 theorem at the failing oracle. -/
theorem C8_witness :
    (newMySQLClient confEnc failOracle).1.Passwd =
      (failOracle.Decrypt confEnc.Password failOracle.readMySecret.val).val :=
  (C8_amended_silent_default confEnc failOracle rfl (by decide)).1

/-- Claim C9 (code bug): all three pool-limit conditions in `Connect` test
`SetConnMaxLifetime != 0`, not each limit's own value: with lifetime 3 and
max-open/max-idle 0, the zeros are installed instead of the claimed default 5;
with lifetime 0 and max-open 7 / max-idle 9, the defaults 5/5 override the
configured positive values; and a negative lifetime is installed as is instead
of defaulting to 3 minutes. -/
theorem C9_pool_defaults_coupled :
    (Connect c9confA).maxOpenConns = 0 ∧
    (Connect c9confA).maxIdleConns = 0 ∧
    c9confA.SetMaxOpenConns = 0 ∧
    (Connect c9confB).maxOpenConns = 5 ∧
    (Connect c9confB).maxIdleConns = 5 ∧
    c9confB.SetMaxOpenConns = 7 ∧
    (Connect c9confC).connMaxLifetimeMins = -1 := by decide

/-- Claim C10: for every input, `getRecords` and
`ExecuteQueryandFetchRecords` return a nil error: every path that returns
(including the empty-query, malformed-cursor, query-execution, column, scan
and rows error paths) yields a nil or empty record map together with a nil
error. -/
theorem C10_nil_errors :
    ∀ (db : String → DBResult) (query qid : String) (dbq : DBQueries)
      (state : List (String × String)),
      (∀ recs last e tr,
        ExecuteQueryandFetchRecords db query qid = some (recs, last, e, tr) →
          e = none) ∧
      (∀ r, getRecords db dbq state = some r → r.err = none) := by
  intro db query qid dbq state
  constructor
  · intro recs last e tr h
    exact exec_err_none db query qid recs last e tr h
  · intro r h
    simp only [getRecords] at h
    split at h
    · cases h; rfl
    · split at h
      · cases hex : ExecuteQueryandFetchRecords db dbq.Query dbq.QueryId with
        | none =>
          simp only [hex] at h
          exact Option.noConfusion h
        | some out =>
          obtain ⟨recs, last, e, tr⟩ := out
          simp only [hex] at h
          split at h
          · cases h; rfl
          · split at h
            · cases h; rfl
            · cases h; rfl
      · split at h
        · cases h; rfl
        · split at h
          · cases h; rfl
          · cases hex : ExecuteQueryandFetchRecords db (rewrittenQuery dbq state)
                dbq.QueryId with
            | none =>
              simp only [hex] at h
              exact Option.noConfusion h
            | some out =>
              obtain ⟨recs, last, e, tr⟩ := out
              simp only [hex] at h
              split at h
              · cases h; rfl
              · split at h
                · cases h; rfl
                · cases hm : mfind (recs.getD []) last with
                  | none =>
                    simp only [hm] at h
                    cases h; rfl
                  | some lastObj =>
                    simp only [hm] at h
                    cases hm2 : mfind lastObj dbq.IndexColumnName with
                    | none =>
                      simp only [hm2] at h
                      exact Option.noConfusion h
                    | some v =>
                      simp only [hm2] at h
                      cases h; rfl

/-- Witness for C10 at the `Q2` example run. -/
theorem C10_witness : c1res.err = none :=
  (C10_nil_errors exDb "Select 1" "Q" exQ2 []).2 c1res (by decide)
